import Mathlib

/-!
Verification development for the Luxembourg transfer-report repository.

This file shallowly embeds the static-schedule resolution engine of
`src/trains.py` (GTFS feed cache, calendar resolver, trip filter, arrival
extractor and query facade) and proves or refutes the frozen claims about it.

Embedding conventions:
* CSV rows (Python dicts produced by `csv.DictReader`) become structures whose
  fields are the columns the code reads; every column named in a header is
  present on every row, matching `DictReader` semantics.
* Python `dict` objects whose iteration order matters are embedded as
  insertion-ordered association lists with an update-in-place `aupsert`
  (Python dict assignment keeps the original position of an existing key).
* Python `set` becomes `Finset String`.
* Aware datetimes (pytz) become a wall-clock record plus a fixed UTC offset in
  minutes; `tz.localize` is modelled by EU daylight-saving rules for
  Europe/Luxembourg (valid for the modern tzdata era, which covers every date
  used below), and datetime + timedelta keeps the offset fixed, exactly as
  pytz fixed-offset tzinfo objects behave without a normalize call.
* `time.monotonic()` values are rationals; fallible operations return
  `Except`/`Option`.
-/

namespace LuxTrains

/-- Proleptic Gregorian calendar date, as held by a Python `datetime`. -/
structure Date where
  year : Int
  month : Int
  day : Int
deriving DecidableEq, Repr

/-- Days since 1970-01-01 of a civil date (standard civil-from-days inverse
algorithm, floor divisions). -/
def daysFromCivil (d : Date) : Int :=
  let y : Int := if d.month ≤ 2 then d.year - 1 else d.year
  let era : Int := Int.fdiv y 400
  let yoe : Int := y - era * 400
  let doy : Int := Int.fdiv (153 * (if 2 < d.month then d.month - 3 else d.month + 9) + 2) 5
                   + d.day - 1
  let doe : Int := yoe * 365 + Int.fdiv yoe 4 - Int.fdiv yoe 100 + doy
  era * 146097 + doe - 719468

/-- Civil date of a day number (inverse of `daysFromCivil`). -/
def civilFromDays (z0 : Int) : Date :=
  let z : Int := z0 + 719468
  let era : Int := Int.fdiv z 146097
  let doe : Int := z - era * 146097
  let yoe : Int := Int.fdiv (doe - Int.fdiv doe 1460 + Int.fdiv doe 36524 - Int.fdiv doe 146096) 365
  let y : Int := yoe + era * 400
  let doy : Int := doe - (365 * yoe + Int.fdiv yoe 4 - Int.fdiv yoe 100)
  let mp : Int := Int.fdiv (5 * doy + 2) 153
  let day : Int := doy - Int.fdiv (153 * mp + 2) 5 + 1
  let month : Int := if mp < 10 then mp + 3 else mp - 9
  ⟨if month ≤ 2 then y + 1 else y, month, day⟩

/-- Calendar-day shift, the effect of `datetime + timedelta(days=n)` on the
date component. -/
def addDays (d : Date) (n : Int) : Date :=
  civilFromDays (daysFromCivil d + n)

/-- Weekday, as produced by `strftime("%A").lower()`. -/
inductive Weekday where
  | monday | tuesday | wednesday | thursday | friday | saturday | sunday
deriving DecidableEq, Repr

/-- Weekday of a date (1970-01-01 was a Thursday). -/
def weekdayOf (d : Date) : Weekday :=
  match ((daysFromCivil d + 4).fmod 7).toNat with
  | 0 => .sunday
  | 1 => .monday
  | 2 => .tuesday
  | 3 => .wednesday
  | 4 => .thursday
  | 5 => .friday
  | _ => .saturday

/-- Naive local wall-clock datetime (minute precision; the code zeroes
seconds before localizing). -/
structure NaiveDT where
  date : Date
  hour : Int
  minute : Int
deriving DecidableEq, Repr

/-- Total minutes of a wall-clock datetime since the epoch wall clock. -/
def wallMinutes (t : NaiveDT) : Int :=
  daysFromCivil t.date * 1440 + t.hour * 60 + t.minute

/-- Day number of the last Sunday of month `m` in year `y`, where day
`lastDay` is the last day of that month. -/
def lastSundayDn (y m lastDay : Int) : Int :=
  let dn := daysFromCivil ⟨y, m, lastDay⟩
  dn - (dn + 4).fmod 7

/-- Day number on which EU summer time starts in year `y` (last Sunday of
March; at 02:00 local the clock jumps to 03:00). -/
def dstStartDn (y : Int) : Int := lastSundayDn y 3 31

/-- Day number on which EU summer time ends in year `y` (last Sunday of
October; at 03:00 local summer time the clock falls back to 02:00). -/
def dstEndDn (y : Int) : Int := lastSundayDn y 10 31

/-- A wall time in the repeated hour of the fall-back transition (it denotes
two distinct instants). -/
def luxAmbiguous (t : NaiveDT) : Bool :=
  decide (daysFromCivil t.date = dstEndDn t.date.year ∧ t.hour = 2)

/-- A wall time skipped by the spring-forward transition. -/
def luxNonexistent (t : NaiveDT) : Bool :=
  decide (daysFromCivil t.date = dstStartDn t.date.year ∧ t.hour = 2)

/-- Whether an unambiguous wall time falls in the summer-time period. -/
def luxInDst (t : NaiveDT) : Bool :=
  decide (dstStartDn t.date.year * 1440 + 180 ≤ wallMinutes t ∧
          wallMinutes t < dstEndDn t.date.year * 1440 + 120)

/-- UTC offset in minutes chosen by pytz for Europe/Luxembourg: the regular
offset for unambiguous times; for ambiguous or nonexistent times the offset
selected by the `is_dst` flag (pytz only consults the flag there). -/
def luxOffset (t : NaiveDT) (is_dst : Bool) : Int :=
  if luxAmbiguous t || luxNonexistent t then (if is_dst then 120 else 60)
  else if luxInDst t then 120 else 60

/-- A pytz-aware datetime: wall-clock components plus the fixed UTC offset of
the tzinfo instance attached at localize time. -/
structure AwareDT where
  wall : NaiveDT
  offsetMin : Int
deriving DecidableEq, Repr

/-- Model of `_LUX_TZ.localize(naive, is_dst=flag)`. -/
def localize (t : NaiveDT) (is_dst : Bool) : AwareDT :=
  ⟨t, luxOffset t is_dst⟩

/-- Model of `aware + timedelta(days=n)`: Python datetime arithmetic advances
the wall-clock fields and keeps the tzinfo (hence the offset) unchanged. -/
def addDaysAware (a : AwareDT) (n : Int) : AwareDT :=
  ⟨⟨addDays a.wall.date n, a.wall.hour, a.wall.minute⟩, a.offsetMin⟩

/-- The instant an aware datetime denotes, in minutes: aware datetimes compare
by wall clock minus offset. -/
def utcMinutes (a : AwareDT) : Int :=
  wallMinutes a.wall - a.offsetMin

/-- Transport type of the `Arrival` dataclass in `models.py`. -/
inductive TransportType where
  | flight | train
deriving DecidableEq, Repr

/-- The `Arrival` dataclass of `models.py`. -/
structure Arrival where
  transport_type : TransportType
  scheduled_time : AwareDT
  identifier : String
  origin : String
  status : String
  delay_minutes : Int
deriving DecidableEq, Repr

/-- The `effective_time` property: scheduled time plus delay, as an instant in
minutes. -/
def Arrival.effective_time (a : Arrival) : Int :=
  utcMinutes a.scheduled_time + a.delay_minutes

/-- Digits-to-number helper for `py_int`. -/
def digitsToNat (t : List Char) : Option Nat :=
  if t ≠ [] ∧ t.all Char.isDigit then
    some (t.foldl (fun n c => n * 10 + (c.toNat - 48)) 0)
  else none

/-- Model of Python `int(s)` on an optionally signed ASCII digit string (the
only shape the feed and the claims exercise); `none` models `ValueError`. -/
def py_int (s : String) : Option Int :=
  match s.data with
  | '-' :: rest => (digitsToNat rest).map (fun n => -(n : Int))
  | '+' :: rest => (digitsToNat rest).map (fun n => (n : Int))
  | l => (digitsToNat l).map (fun n => (n : Int))

/-- Split a char list on the colon character, the effect of
Python `time_str.split(":")`. -/
def splitColonAux : List Char → List Char → List (List Char)
  | [], acc => [acc.reverse]
  | c :: t, acc => if c = ':' then acc.reverse :: splitColonAux t [] else splitColonAux t (c :: acc)

/-- Python `s.split(":")`. -/
def py_split_colon (s : String) : List String :=
  (splitColonAux s.data []).map (fun l => ⟨l⟩)

/-- Drop leading whitespace of a char list. -/
def dropWs : List Char → List Char
  | [] => []
  | c :: t => if c.isWhitespace then dropWs t else c :: t

/-- Python `s.strip()` (the feed data only carries ASCII whitespace). -/
def py_strip (s : String) : String :=
  ⟨(dropWs (dropWs s.data).reverse).reverse⟩

/-- Python `s.upper()` (allow-list categories are ASCII). -/
def py_upper (s : String) : String :=
  ⟨s.data.map Char.toUpper⟩

/-- Python `s.endswith(suffix)`. -/
def py_endswith (s suffix : String) : Bool :=
  suffix.data.isSuffixOf s.data

/-- Python `s[:-k]`, for 0 < k ≤ len(s). -/
def py_dropright (s : String) (k : Nat) : String :=
  ⟨s.data.take (s.data.length - k)⟩

/-- The `_clean_stop_name` helper of `src/trains.py`: strip the first matching
known suffix. -/
def clean_stop_name (name : String) : String :=
  if py_endswith name ", Gare Centrale" then py_dropright name ", Gare Centrale".length
  else if py_endswith name ", Gare" then py_dropright name ", Gare".length
  else if py_endswith name ", Hauptbahnhof" then py_dropright name ", Hauptbahnhof".length
  else if py_endswith name ", Hbf" then py_dropright name ", Hbf".length
  else name

/-- A trips.txt row after `_active_trips` enriched it with the resolved
route short name (the injected `_route_name` entry). -/
structure Trip where
  trip_id : String
  service_id : String
  route_id : String
  trip_headsign : String
  route_name : String
deriving DecidableEq, Repr

/-- The opening lines of `_build_arrival`: split on ":", require at least two
parts, and parse hour and minute with `int()` (a parse failure is the caught
`ValueError`). -/
def parse_hm (time_str : String) : Option (Int × Int) :=
  match py_split_colon time_str with
  | p0 :: p1 :: _ =>
    match py_int p0, py_int p1 with
    | some h0, some m0 => some (h0, m0)
    | _, _ => none
  | _ => none

/-- The `_build_arrival` function of `src/trains.py`. The `date` argument is
the already-parsed value of `strptime(date_str, "%Y%m%d")`; the guard on hour
and minute models the `ValueError` that `base.replace` raises outside
0..23 and 0..59 and that the function catches, returning `None`. -/
def build_arrival (time_str : String) (date : Date) (trip : Trip)
    (origin_stop_name : String) : Option Arrival :=
  match parse_hm time_str with
  | none => none
  | some (h0, m0) =>
    let hour : Int := if 24 ≤ h0 then h0 - 24 else h0
    let day_offset : Int := if 24 ≤ h0 then 1 else 0
    if 0 ≤ hour ∧ hour ≤ 23 ∧ 0 ≤ m0 ∧ m0 ≤ 59 then
      let dt0 := localize ⟨date, hour, m0⟩ false
      let dt := if day_offset = 1 then addDaysAware dt0 1 else dt0
      let origin := if origin_stop_name ≠ "" then clean_stop_name origin_stop_name else "—"
      some { transport_type := .train
             scheduled_time := dt
             identifier := trip.route_name
             origin := if origin = "" then "—" else origin
             status := "scheduled"
             delay_minutes := 0 }
    else none

/-- Insertion-ordered association-list lookup (Python dict access). -/
def alookup : List (String × α) → String → Option α
  | [], _ => none
  | (k', v) :: t, k => if k' = k then some v else alookup t k

/-- Insertion-ordered association-list update (Python dict assignment: an
existing key keeps its position, a new key is appended). -/
def aupsert : List (String × α) → String → α → List (String × α)
  | [], k, v => [(k, v)]
  | (k', v') :: t, k, v => if k' = k then (k, v) :: t else (k', v') :: aupsert t k v

/-- A calendar.txt row. -/
structure CalRow where
  service_id : String
  start_date : String
  end_date : String
  monday : String
  tuesday : String
  wednesday : String
  thursday : String
  friday : String
  saturday : String
  sunday : String
deriving DecidableEq, Repr

/-- The weekday-flag column selected by `row.get(weekday, "0")`. -/
def CalRow.flag (r : CalRow) : Weekday → String
  | .monday => r.monday
  | .tuesday => r.tuesday
  | .wednesday => r.wednesday
  | .thursday => r.thursday
  | .friday => r.friday
  | .saturday => r.saturday
  | .sunday => r.sunday

/-- A calendar_dates.txt row. -/
structure CalDateRow where
  service_id : String
  date : String
  exception_type : String
deriving DecidableEq, Repr

/-- Lexicographic comparison on code points of one string against another,
the order Python uses for `start <= target_str <= end`. -/
def listCharLe : List Char → List Char → Bool
  | [], _ => true
  | _ :: _, [] => false
  | c1 :: t1, c2 :: t2 => if c1 = c2 then listCharLe t1 t2 else decide (c1 < c2)

/-- Python string less-or-equal. -/
def py_str_le (a b : String) : Bool := listCharLe a.data b.data

/-- Step 1 of `_active_services`: services whose date range contains the
target date string (Python string comparison) and whose weekday flag is set. -/
def weekly_services (cal : List CalRow) (target_str : String) (wd : Weekday) : Finset String :=
  cal.foldl
    (fun s r =>
      if py_str_le r.start_date target_str && py_str_le target_str r.end_date
          && (r.flag wd == "1") then
        insert r.service_id s
      else s)
    ∅

/-- One calendar_dates.txt row applied to the service set (step 2 of
`_active_services`): type "1" adds, type "2" removes, rows for other dates or
types are ignored. -/
def apply_exception (target_str : String) (s : Finset String) (r : CalDateRow) : Finset String :=
  if r.date ≠ target_str then s
  else if r.exception_type = "1" then insert r.service_id s
  else if r.exception_type = "2" then s.erase r.service_id
  else s

/-- The `_active_services` function: weekly pattern, then exception rows in
file order. -/
def active_services (cal : List CalRow) (cal_dates : List CalDateRow)
    (target_str : String) (wd : Weekday) : Finset String :=
  cal_dates.foldl (apply_exception target_str) (weekly_services cal target_str wd)

/-- A routes.txt row. -/
structure RouteRow where
  route_id : String
  route_short_name : String
deriving DecidableEq, Repr

/-- The `_read_routes` function: route_id to route_short_name. -/
def read_routes (routes : List RouteRow) : List (String × String) :=
  routes.foldl (fun m r => aupsert m r.route_id r.route_short_name) []

/-- A trips.txt row. -/
structure TripRow where
  route_id : String
  service_id : String
  trip_id : String
  trip_headsign : String
deriving DecidableEq, Repr

/-- The `_TRAIN_TYPES` allow-list. -/
def TRAIN_TYPES : List String :=
  ["ICE", "TGV", "IC", "EC", "RE", "RB", "TER", "IR", "CRE", "CRN"]

/-- The `_active_trips` function: keep rows of active services whose route
short name (stripped, upper-cased) is an allow-listed train type. -/
def active_trips (trip_rows : List TripRow) (services : Finset String)
    (route_map : List (String × String)) : List (String × Trip) :=
  trip_rows.foldl
    (fun trips row =>
      if row.service_id ∈ services then
        let route_name := py_upper (py_strip ((alookup route_map row.route_id).getD ""))
        if route_name ∈ TRAIN_TYPES then
          aupsert trips row.trip_id
            ⟨row.trip_id, row.service_id, row.route_id, row.trip_headsign, route_name⟩
        else trips
      else trips)
    []

/-- A stops.txt row. -/
structure StopRow where
  stop_id : String
  stop_name : String
deriving DecidableEq, Repr

/-- The `_read_stop_names` function. -/
def read_stop_names (stops : List StopRow) : List (String × String) :=
  stops.foldl (fun m r => aupsert m r.stop_id r.stop_name) []

/-- A stop_times.txt row. The `stop_sequence` field holds the value of
`int(row["stop_sequence"])`, which the source computes eagerly for every
scanned row. -/
structure StopTimeRow where
  trip_id : String
  stop_id : String
  arrival_time : String
  stop_sequence : Int
deriving DecidableEq, Repr

/-- The `_STOP_ID` constant of `src/trains.py` (Gare Centrale). -/
def STOP_ID : String := "000200405060"

/-- State of the first (scan) pass of `_extract_arrivals`. -/
structure ScanState where
  gc_rows : List (String × StopTimeRow)
  trip_max_seq : List (String × Int)
  trip_first : List (String × (Int × String))
deriving Repr

/-- One stop_times.txt row processed by the scan pass. -/
def scan_step (trips : List (String × Trip)) (st : ScanState) (row : StopTimeRow) : ScanState :=
  if (alookup trips row.trip_id).isNone then st
  else
    let seq := row.stop_sequence
    let maxs :=
      match alookup st.trip_max_seq row.trip_id with
      | none => aupsert st.trip_max_seq row.trip_id seq
      | some m => if m < seq then aupsert st.trip_max_seq row.trip_id seq else st.trip_max_seq
    let firsts :=
      match alookup st.trip_first row.trip_id with
      | none => aupsert st.trip_first row.trip_id (seq, row.stop_id)
      | some p => if seq < p.1 then aupsert st.trip_first row.trip_id (seq, row.stop_id) else st.trip_first
    let gcs := if row.stop_id = STOP_ID then aupsert st.gc_rows row.trip_id row else st.gc_rows
    ⟨gcs, maxs, firsts⟩

/-- The whole scan pass. -/
def scan (stop_times : List StopTimeRow) (trips : List (String × Trip)) : ScanState :=
  stop_times.foldl (scan_step trips) ⟨[], [], []⟩

/-- The decision pass of `_extract_arrivals`, for one recorded Gare Centrale
row: skip unless the row's sequence is the trip's maximum, skip empty arrival
times, then build the arrival from the origin stop name. The trip lookup
cannot fail (the scan pass only records trips present in the map); the `none`
arm mirrors that unreachable path. -/
def decision (trips : List (String × Trip)) (date : Date)
    (maxs : List (String × Int)) (firsts : List (String × (Int × String)))
    (stop_names : List (String × String)) (p : String × StopTimeRow) : Option Arrival :=
  if p.2.stop_sequence ≠ (alookup maxs p.1).getD (-1) then none
  else if p.2.arrival_time = "" then none
  else
    match alookup trips p.1 with
    | none => none
    | some trip =>
      let origin_sid := ((alookup firsts p.1).getD (0, "")).2
      let origin_name := (alookup stop_names origin_sid).getD ""
      build_arrival p.2.arrival_time date trip origin_name

/-- Sort key order used by `sorted(arrivals, key=lambda a: a.effective_time)`:
aware datetimes compare as instants. -/
def arrLe (a b : Arrival) : Prop :=
  a.effective_time ≤ b.effective_time

instance : DecidableRel arrLe := fun _ _ => Int.decLe _ _

instance : IsTotal Arrival arrLe := ⟨fun _ _ => Int.le_total _ _⟩

instance : IsTrans Arrival arrLe := ⟨fun _ _ _ h1 h2 => le_trans h1 h2⟩

/-- The `_extract_arrivals` function: scan pass, decision pass in recorded
order, then a stable sort by effective time (Python's sorted is stable;
insertion sort is the stable sort). -/
def extract_arrivals (stop_times : List StopTimeRow) (trips : List (String × Trip))
    (stops : List StopRow) (date : Date) : List Arrival :=
  let st := scan stop_times trips
  let stop_names := read_stop_names stops
  List.insertionSort arrLe
    (st.gc_rows.filterMap (decision trips date st.trip_max_seq st.trip_first stop_names))

/-- In-memory decoded GTFS archive: the tabular resources the engine reads.
A file missing from the archive behaves like an empty table for the two
calendar files, which is how the source's namelist guards degenerate. -/
structure Feed where
  calendar : List CalRow
  calendar_dates : List CalDateRow
  routes : List RouteRow
  trips : List TripRow
  stops : List StopRow
  stop_times : List StopTimeRow

/-- Zero-padded decimal rendering of `strftime` fields. -/
def padNum (n : Nat) (len : Nat) : String :=
  let s := toString n
  ⟨List.replicate (len - s.length) '0'⟩ ++ s

/-- The `strftime("%Y%m%d")` date string. -/
def format_ymd (d : Date) : String :=
  padNum d.year.toNat 4 ++ padNum d.month.toNat 2 ++ padNum d.day.toNat 2

/-- The `_for_date` pipeline of `src/trains.py`, minus the cache fetch: from
a decoded feed and a target date to the day's arrival list. -/
def gtfs_for_date (feed : Feed) (target : Date) : List Arrival :=
  let target_str := format_ymd target
  let wd := weekdayOf target
  let services := active_services feed.calendar feed.calendar_dates target_str wd
  if services = ∅ then []
  else
    let route_map := read_routes feed.routes
    let trips := active_trips feed.trips services route_map
    if trips = [] then []
    else extract_arrivals feed.stop_times trips feed.stops target

/-- The `_GTFS_TTL` staleness threshold, in seconds. -/
def GTFS_TTL : ℚ := 6 * 3600

/-- Cache state of `TrainDataSource`: the cached zip, the monotonic fetch
timestamp, and (instrumentation for counting acquisitions) how many times
`_download_zip` has been entered. -/
structure CacheState (Z : Type) where
  zip : Option Z
  fetched_at : ℚ
  downloads : Nat
deriving DecidableEq, Repr

/-- The `_get_zip` method body, run under the lock: `now` is the value of
`time.monotonic()` and `download` the outcome of `_download_zip()` (an
exception propagates, leaving the cached zip and its timestamp untouched). -/
def get_zip (st : CacheState Z) (now : ℚ) (download : Except String Z) :
    Except String Z × CacheState Z :=
  let refresh : Except String Z × CacheState Z :=
    match download with
    | .ok z => (.ok z, ⟨some z, now, st.downloads + 1⟩)
    | .error e => (.error e, ⟨st.zip, st.fetched_at, st.downloads + 1⟩)
  match st.zip with
  | none => refresh
  | some z => if GTFS_TTL < now - st.fetched_at then refresh else (.ok z, st)

/-- N callers serialized by the `asyncio.Lock`: each runs the locked section
to completion in turn, against the state the previous caller left.
Simultaneity of the burst is modelled by the shared `now`. -/
def run_calls (st : CacheState Z) (now : ℚ) (dls : List (Except String Z)) :
    List (Except String Z) × CacheState Z :=
  match dls with
  | [] => ([], st)
  | d :: t =>
    let r := get_zip st now d
    let rest := run_calls r.2 now t
    (r.1 :: rest.1, rest.2)

/-- One day of the `get_next_tgv` loop body: skip a failed fetch, filter to
TGV arrivals strictly after now, and return the first minimal one (Python
`min` keeps the first element attaining the minimum). -/
def py_min_by (key : Arrival → ℚ) (h : Arrival) (t : List Arrival) : Arrival :=
  t.foldl (fun acc x => if key x < key acc then x else acc) h

/-- The filter and min of one iteration of `get_next_tgv`. -/
def day_hit (now : ℚ) (r : Except String (List Arrival)) : Option Arrival :=
  match r with
  | .error _ => none
  | .ok arrivals =>
    match arrivals.filter
        (fun a => decide (a.identifier = "TGV" ∧ (a.effective_time : ℚ) > now)) with
    | [] => none
    | h :: t => some (py_min_by (fun a => (a.effective_time : ℚ)) h t)

/-- The `get_next_tgv` method: days at offsets 0 and 1, first hit wins,
per-day failures skipped. The per-day arrival lists are supplied by
`for_date`, the outcome of `self._for_date` for each offset. -/
def get_next_tgv (now : ℚ) (for_date : Nat → Except String (List Arrival)) : Option Arrival :=
  match day_hit now (for_date 0) with
  | some a => some a
  | none =>
    match day_hit now (for_date 1) with
    | some a => some a
    | none => none

/-! Concrete instances used by witnesses and counterexamples. -/

/-- A TGV trip record used by concrete builder evaluations. -/
def tripTGV : Trip := ⟨"T", "S", "R", "", "TGV"⟩

/-- The arrival built from "25:15" on 2024-03-10. -/
def arrC4 : Arrival :=
  ⟨.train, ⟨⟨⟨2024, 3, 11⟩, 1, 15⟩, 60⟩, "TGV", "—", "scheduled", 0⟩

/-- The arrival built from "26:30" on 2024-10-26: its wall time lands in the
repeated hour of 2024-10-27 but it keeps the daylight offset resolved on the
service date. -/
def arrC5 : Arrival :=
  ⟨.train, ⟨⟨⟨2024, 10, 27⟩, 2, 30⟩, 120⟩, "TGV", "—", "scheduled", 0⟩

/-- The arrival built from "02:30" on the 2024 fall-back date itself: pytz
with is_dst=False picks the standard-time offset. -/
def arrW5 : Arrival :=
  ⟨.train, ⟨⟨⟨2024, 10, 27⟩, 2, 30⟩, 60⟩, "TGV", "—", "scheduled", 0⟩

/-- Active-trips map with a TGV trip scanned before an IC trip. -/
def tripsC6 : List (String × Trip) :=
  [("T1", ⟨"T1", "S", "R1", "", "TGV"⟩), ("T2", ⟨"T2", "S", "R2", "", "IC"⟩)]

/-- Stop-time rows where both trips terminate at Gare Centrale at the same
wall time, the TGV row first. -/
def stC6 : List StopTimeRow :=
  [⟨"T1", "A", "09:00", 1⟩, ⟨"T1", STOP_ID, "10:00", 2⟩,
   ⟨"T2", "A", "09:10", 1⟩, ⟨"T2", STOP_ID, "10:00", 2⟩]

/-- Stops table for the concrete feeds. -/
def stopsC6 : List StopRow := [⟨"A", "Arlon"⟩, ⟨STOP_ID, "Luxembourg, Gare Centrale"⟩]

/-- The claim's ordering property: ascending by timestamp with ties ordered
by category name. -/
def timestamp_sorted_category_ties (l : List Arrival) : Prop :=
  List.Pairwise
    (fun a b => a.effective_time < b.effective_time ∨
      (a.effective_time = b.effective_time ∧ py_str_le a.identifier b.identifier = true)) l

/-- Active-trips map where trip T1 passes through Gare Centrale and trip T2
terminates there. -/
def tripsC1 : List (String × Trip) :=
  [("T1", ⟨"T1", "S", "R1", "", "TGV"⟩), ("T2", ⟨"T2", "S", "R2", "", "IC"⟩)]

/-- Stop-time rows: T1 visits Gare Centrale at sequence 1 of 2 (pass-through),
T2 at sequence 2 of 2 (terminus). -/
def stC1 : List StopTimeRow :=
  [⟨"T1", STOP_ID, "08:00", 1⟩, ⟨"T1", "B", "09:00", 2⟩,
   ⟨"T2", "A", "07:00", 1⟩, ⟨"T2", STOP_ID, "08:30", 2⟩]

/-- The recorded Gare Centrale row of trip T1 in `stC1`. -/
def rowC1 : StopTimeRow := ⟨"T1", STOP_ID, "08:00", 1⟩

/-- Weekly calendar rows running service S every day of a range containing
2024-03-10. -/
def calC2 : List CalRow :=
  [⟨"S", "20240101", "20241231", "1", "1", "1", "1", "1", "1", "1"⟩]

/-- Exception rows for service S on 2024-03-10: a remove followed by an add. -/
def cdsC2 : List CalDateRow :=
  [⟨"S", "20240310", "2"⟩, ⟨"S", "20240310", "1"⟩]

/-- Exception list: remove service S, then add it (file order). -/
def l1C7 : List CalDateRow := [⟨"S", "20240310", "2"⟩, ⟨"S", "20240310", "1"⟩]

/-- The same two exception rows in the opposite order. -/
def l2C7 : List CalDateRow := [⟨"S", "20240310", "1"⟩, ⟨"S", "20240310", "2"⟩]

/-- Exception rows on distinct services, so add/remove never collide. -/
def l1W7 : List CalDateRow := [⟨"A", "20240310", "1"⟩, ⟨"B", "20240310", "2"⟩]

/-- The rows of `l1W7` swapped. -/
def l2W7 : List CalDateRow := [⟨"B", "20240310", "2"⟩, ⟨"A", "20240310", "1"⟩]

/-- Feed for the facade counterexample: two TGV trips terminating at Gare
Centrale, one encoded past midnight ("25:30"), one shortly after midnight
("00:15"); service S is active every day of March 2024. -/
def feedC9 : Feed :=
  { calendar := [⟨"S", "20240301", "20240401", "1", "1", "1", "1", "1", "1", "1"⟩]
    calendar_dates := []
    routes := [⟨"R1", "TGV"⟩]
    trips := [⟨"R1", "S", "T1", ""⟩, ⟨"R1", "S", "T2", ""⟩]
    stops := [⟨"A", "Arlon"⟩, ⟨STOP_ID, "Luxembourg, Gare Centrale"⟩]
    stop_times := [⟨"T1", "A", "23:50", 1⟩, ⟨"T1", STOP_ID, "25:30", 2⟩,
                   ⟨"T2", "A", "00:01", 1⟩, ⟨"T2", STOP_ID, "00:15", 2⟩] }

/-- Per-date fetch over `feedC9` starting at 2024-03-10, every date
succeeding. -/
def fC9 : Nat → Except String (List Arrival) :=
  fun off => .ok (gtfs_for_date feedC9 (addDays ⟨2024, 3, 10⟩ (off : Int)))

/-- The query instant: 2024-03-10 23:00 local (CET). -/
def nowC9 : ℚ := ((utcMinutes ⟨⟨⟨2024, 3, 10⟩, 23, 0⟩, 60⟩ : Int) : ℚ)

/-- Instant of the arrival the facade returns in the counterexample:
2024-03-11 01:30 local. -/
def eT1utc : Int := utcMinutes ⟨⟨⟨2024, 3, 11⟩, 1, 30⟩, 60⟩

/-- Per-date fetch whose first date fails. -/
def fW9 : Nat → Except String (List Arrival) :=
  fun off => if off = 0 then .error "decode failed" else .ok []

/-- Exception rows dated to a feed's target date for a given service. -/
def has_exc (cds : List CalDateRow) (d sid ty : String) : Prop :=
  ∃ r ∈ cds, r.date = d ∧ r.service_id = sid ∧ r.exception_type = ty

instance (cds : List CalDateRow) (d sid ty : String) : Decidable (has_exc cds d sid ty) :=
  decidable_of_iff (∃ r ∈ cds, r.date = d ∧ r.service_id = sid ∧ r.exception_type = ty) Iff.rfl

/-- Invariant of the scan pass: every recorded Gare Centrale row belongs to a
trip with a recorded maximum sequence. -/
def MaxRecorded (st : ScanState) : Prop :=
  ∀ q ∈ st.gc_rows, (alookup st.trip_max_seq q.1).isSome

/-! Helper lemmas about association lists and the scan pass. -/

theorem alookup_aupsert_self (l : List (String × α)) (k : String) (v : α) :
    alookup (aupsert l k v) k = some v := by
  induction l with
  | nil => simp [aupsert, alookup]
  | cons p t ih =>
    obtain ⟨k', v'⟩ := p
    by_cases h : k' = k
    · simp [aupsert, h, alookup]
    · simp [aupsert, h, alookup, ih]

theorem alookup_aupsert_isSome (l : List (String × α)) (k k' : String) (v : α)
    (h : (alookup l k').isSome) : (alookup (aupsert l k v) k').isSome := by
  induction l with
  | nil => simp [alookup] at h
  | cons p t ih =>
    obtain ⟨k0, v0⟩ := p
    by_cases hk : k0 = k
    · subst hk
      by_cases hk' : k0 = k'
      · simp [aupsert, alookup, hk']
      · simp [aupsert, alookup, hk'] at h ⊢
        exact h
    · simp only [aupsert, if_neg hk]
      by_cases hk' : k0 = k'
      · simp [alookup, hk']
      · simp [alookup, hk'] at h ⊢
        exact ih h

theorem mem_aupsert {l : List (String × α)} {k : String} {v : α} {p : String × α}
    (h : p ∈ aupsert l k v) : p ∈ l ∨ p = (k, v) := by
  induction l with
  | nil => simp [aupsert] at h; right; exact h
  | cons q t ih =>
    obtain ⟨k0, v0⟩ := q
    by_cases hk : k0 = k
    · simp [aupsert, hk] at h
      rcases h with h | h
      · right; exact h
      · left; simp [h]
    · simp [aupsert, hk] at h
      rcases h with h | h
      · left; simp [h]
      · rcases ih h with h' | h'
        · left; simp [h']
        · right; exact h'

theorem scan_step_max_recorded (trips : List (String × Trip)) (st : ScanState)
    (row : StopTimeRow) (h : MaxRecorded st) : MaxRecorded (scan_step trips st row) := by
  unfold scan_step
  by_cases ht : (alookup trips row.trip_id).isNone
  · simpa [ht] using h
  · simp only [ht, if_false]
    intro q hq
    have hmax : ∀ k', (alookup st.trip_max_seq k').isSome →
        (alookup
          (match alookup st.trip_max_seq row.trip_id with
           | none => aupsert st.trip_max_seq row.trip_id row.stop_sequence
           | some m => if m < row.stop_sequence then
               aupsert st.trip_max_seq row.trip_id row.stop_sequence
             else st.trip_max_seq) k').isSome := by
      intro k' hk'
      cases hm : alookup st.trip_max_seq row.trip_id with
      | none => exact alookup_aupsert_isSome _ _ _ _ hk'
      | some m =>
        by_cases hlt : m < row.stop_sequence
        · simp only [hlt, if_true]
          exact alookup_aupsert_isSome _ _ _ _ hk'
        · simpa [hlt] using hk'
    have hself : (alookup
        (match alookup st.trip_max_seq row.trip_id with
         | none => aupsert st.trip_max_seq row.trip_id row.stop_sequence
         | some m => if m < row.stop_sequence then
             aupsert st.trip_max_seq row.trip_id row.stop_sequence
           else st.trip_max_seq) row.trip_id).isSome := by
      cases hm : alookup st.trip_max_seq row.trip_id with
      | none => simp [alookup_aupsert_self]
      | some m =>
        by_cases hlt : m < row.stop_sequence
        · simp [hlt, alookup_aupsert_self]
        · simp [hlt, hm]
    by_cases hs : row.stop_id = STOP_ID
    · simp only [hs, if_true] at hq
      rcases mem_aupsert hq with hq' | hq'
      · exact hmax _ (h q hq')
      · subst hq'
        exact hself
    · simp only [hs, if_false] at hq
      exact hmax _ (h q hq)

theorem scan_max_recorded (stop_times : List StopTimeRow) (trips : List (String × Trip)) :
    MaxRecorded (scan stop_times trips) := by
  unfold scan
  have : ∀ (l : List StopTimeRow) (st : ScanState), MaxRecorded st →
      MaxRecorded (l.foldl (scan_step trips) st) := by
    intro l
    induction l with
    | nil => intro st h; exact h
    | cons r t ih => intro st h; exact ih _ (scan_step_max_recorded trips st r h)
  exact this stop_times ⟨[], [], []⟩ (by intro q hq; simp at hq)

/-- C1: for every feed, set of active trips and date, the decision pass of
the arrival extractor yields nothing for a recorded target-stop row whose
sequence position is strictly below the trip's recorded maximum, and every
emitted ArrivalEvent stems from a recorded target-stop row whose sequence
position equals the trip's recorded maximum (the terminus). -/
theorem c1_terminus_only (stop_times : List StopTimeRow) (trips : List (String × Trip))
    (stops : List StopRow) (date : Date) :
    (∀ tid row m, (tid, row) ∈ (scan stop_times trips).gc_rows →
      alookup (scan stop_times trips).trip_max_seq tid = some m →
      row.stop_sequence < m →
      decision trips date (scan stop_times trips).trip_max_seq
        (scan stop_times trips).trip_first (read_stop_names stops) (tid, row) = none) ∧
    (∀ a ∈ extract_arrivals stop_times trips stops date,
      ∃ tid row m, (tid, row) ∈ (scan stop_times trips).gc_rows ∧
        alookup (scan stop_times trips).trip_max_seq tid = some m ∧
        row.stop_sequence = m ∧
        decision trips date (scan stop_times trips).trip_max_seq
          (scan stop_times trips).trip_first (read_stop_names stops) (tid, row) = some a) := by
  constructor
  · intro tid row m hmem hmax hlt
    unfold decision
    simp only [hmax, Option.getD_some]
    rw [if_pos (by exact Int.ne_of_lt hlt)]
  · intro a ha
    have ha' : a ∈ ((scan stop_times trips).gc_rows.filterMap
        (decision trips date (scan stop_times trips).trip_max_seq
          (scan stop_times trips).trip_first (read_stop_names stops))) := by
      have := (List.mem_insertionSort arrLe (l := (scan stop_times trips).gc_rows.filterMap
        (decision trips date (scan stop_times trips).trip_max_seq
          (scan stop_times trips).trip_first (read_stop_names stops))) (x := a))
      exact this.mp ha
    rcases List.mem_filterMap.mp ha' with ⟨p, hp, hd⟩
    obtain ⟨tid, row⟩ := p
    have hsome := scan_max_recorded stop_times trips _ hp
    rcases Option.isSome_iff_exists.mp hsome with ⟨m, hm⟩
    refine ⟨tid, row, m, hp, hm, ?_, hd⟩
    by_contra hne
    unfold decision at hd
    simp only [hm, Option.getD_some] at hd
    rw [if_pos hne] at hd
    exact Option.noConfusion hd

/-- C1 witness: in the concrete feed `stC1`, trip T1 visits Gare Centrale at
sequence 1 while its maximum is 2, and the decision pass drops it. -/
theorem c1_terminus_only_witness :
    ("T1", rowC1) ∈ (scan stC1 tripsC1).gc_rows ∧
    alookup (scan stC1 tripsC1).trip_max_seq "T1" = some 2 ∧
    (1 : Int) < 2 ∧
    decision tripsC1 ⟨2024, 3, 10⟩ (scan stC1 tripsC1).trip_max_seq
      (scan stC1 tripsC1).trip_first (read_stop_names stopsC6) ("T1", rowC1) = none :=
  ⟨by decide, by decide, by decide,
    (c1_terminus_only stC1 tripsC1 stopsC6 ⟨2024, 3, 10⟩).1 "T1" rowC1 2
      (by decide) (by decide) (by decide)⟩

/-! Helper lemmas about the exception fold of the calendar resolver. -/

theorem not_mem_apply_exception {d sid : String} {s : Finset String} {r : CalDateRow}
    (hna : ¬ (r.date = d ∧ r.service_id = sid ∧ r.exception_type = "1"))
    (h : sid ∉ s) : sid ∉ apply_exception d s r := by
  unfold apply_exception
  by_cases hd : r.date ≠ d
  · simpa [hd] using h
  · push_neg at hd
    by_cases h1 : r.exception_type = "1"
    · have hne : r.service_id ≠ sid := by
        intro he; exact hna ⟨hd, he, h1⟩
      simp [hd, h1, Finset.mem_insert, hne, h]
      intro he; exact hne he.symm
    · by_cases h2 : r.exception_type = "2"
      · simp only [hd, h1, h2, if_true, if_false, ne_eq, not_true_eq_false]
        intro hmem
        exact h (Finset.mem_of_mem_erase hmem)
      · simpa [hd, h1, h2] using h

theorem mem_apply_exception {d sid : String} {s : Finset String} {r : CalDateRow}
    (hnr : ¬ (r.date = d ∧ r.service_id = sid ∧ r.exception_type = "2"))
    (h : sid ∈ s) : sid ∈ apply_exception d s r := by
  unfold apply_exception
  by_cases hd : r.date ≠ d
  · simpa [hd] using h
  · push_neg at hd
    by_cases h1 : r.exception_type = "1"
    · simp [hd, h1, Finset.mem_insert, h]
    · by_cases h2 : r.exception_type = "2"
      · have hne : r.service_id ≠ sid := by
          intro he; exact hnr ⟨hd, he, h2⟩
        simp only [hd, h1, h2, if_true, if_false, ne_eq, not_true_eq_false]
        exact Finset.mem_erase_of_ne_of_mem (fun he => hne he.symm) h
      · simpa [hd, h1, h2] using h

theorem no_add_fold {d sid : String} :
    ∀ (l : List CalDateRow) (init : Finset String), ¬ has_exc l d sid "1" →
      sid ∉ init → sid ∉ l.foldl (apply_exception d) init := by
  intro l
  induction l with
  | nil => intro init _ h; simpa using h
  | cons r t ih =>
    intro init hna h
    have hnar : ¬ (r.date = d ∧ r.service_id = sid ∧ r.exception_type = "1") := by
      intro hr; exact hna ⟨r, by simp, hr⟩
    have hnat : ¬ has_exc t d sid "1" := by
      rintro ⟨q, hq, hp⟩; exact hna ⟨q, by simp [hq], hp⟩
    exact ih _ hnat (not_mem_apply_exception hnar h)

theorem no_remove_fold {d sid : String} :
    ∀ (l : List CalDateRow) (init : Finset String), ¬ has_exc l d sid "2" →
      sid ∈ init → sid ∈ l.foldl (apply_exception d) init := by
  intro l
  induction l with
  | nil => intro init _ h; simpa using h
  | cons r t ih =>
    intro init hnr h
    have hnrr : ¬ (r.date = d ∧ r.service_id = sid ∧ r.exception_type = "2") := by
      intro hr; exact hnr ⟨r, by simp, hr⟩
    have hnrt : ¬ has_exc t d sid "2" := by
      rintro ⟨q, hq, hp⟩; exact hnr ⟨q, by simp [hq], hp⟩
    exact ih _ hnrt (mem_apply_exception hnrr h)

theorem mem_apply_exception_neutral {d sid : String} {s : Finset String} {r : CalDateRow}
    (hna : ¬ (r.date = d ∧ r.service_id = sid ∧ r.exception_type = "1"))
    (hnr : ¬ (r.date = d ∧ r.service_id = sid ∧ r.exception_type = "2")) :
    (sid ∈ apply_exception d s r ↔ sid ∈ s) := by
  constructor
  · intro h
    by_contra hs
    exact not_mem_apply_exception hna hs h
  · intro h
    exact mem_apply_exception hnr h

theorem mem_exc_fold {d sid : String} :
    ∀ (l : List CalDateRow) (init : Finset String),
      ¬ (has_exc l d sid "1" ∧ has_exc l d sid "2") →
      (sid ∈ l.foldl (apply_exception d) init ↔
        has_exc l d sid "1" ∨ (sid ∈ init ∧ ¬ has_exc l d sid "2")) := by
  intro l
  induction l with
  | nil =>
    intro init _
    simp [has_exc]
  | cons r t ih =>
    intro init H
    have hsplit1 : has_exc (r :: t) d sid "1" ↔
        (r.date = d ∧ r.service_id = sid ∧ r.exception_type = "1") ∨ has_exc t d sid "1" := by
      constructor
      · rintro ⟨q, hq, hp⟩
        rcases List.mem_cons.mp hq with h | h
        · left; rw [← h]; exact hp
        · right; exact ⟨q, h, hp⟩
      · rintro (h | ⟨q, hq, hp⟩)
        · exact ⟨r, by simp, h⟩
        · exact ⟨q, by simp [hq], hp⟩
    have hsplit2 : has_exc (r :: t) d sid "2" ↔
        (r.date = d ∧ r.service_id = sid ∧ r.exception_type = "2") ∨ has_exc t d sid "2" := by
      constructor
      · rintro ⟨q, hq, hp⟩
        rcases List.mem_cons.mp hq with h | h
        · left; rw [← h]; exact hp
        · right; exact ⟨q, h, hp⟩
      · rintro (h | ⟨q, hq, hp⟩)
        · exact ⟨r, by simp, h⟩
        · exact ⟨q, by simp [hq], hp⟩
    by_cases hr1 : r.date = d ∧ r.service_id = sid ∧ r.exception_type = "1"
    · have hA : has_exc (r :: t) d sid "1" := hsplit1.mpr (Or.inl hr1)
      have hnR : ¬ has_exc (r :: t) d sid "2" := fun hR => H ⟨hA, hR⟩
      have hnRt : ¬ has_exc t d sid "2" := fun h => hnR (hsplit2.mpr (Or.inr h))
      have hmem : sid ∈ apply_exception d init r := by
        unfold apply_exception
        simp [hr1.1, hr1.2.2, Finset.mem_insert, hr1.2.1]
      simp only [List.foldl_cons]
      constructor
      · intro _; left; exact hA
      · intro _; exact no_remove_fold t _ hnRt hmem
    · by_cases hr2 : r.date = d ∧ r.service_id = sid ∧ r.exception_type = "2"
      · have hR : has_exc (r :: t) d sid "2" := hsplit2.mpr (Or.inl hr2)
        have hnA : ¬ has_exc (r :: t) d sid "1" := fun hA => H ⟨hA, hR⟩
        have hnAt : ¬ has_exc t d sid "1" := fun h => hnA (hsplit1.mpr (Or.inr h))
        have hnmem : sid ∉ apply_exception d init r := by
          unfold apply_exception
          have hne1 : r.exception_type ≠ "1" := by
            intro h; exact hr1 ⟨hr2.1, hr2.2.1, h⟩
          simp [hr2.1, hr2.2.2, hne1, hr2.2.1]
        simp only [List.foldl_cons]
        constructor
        · intro hmem
          exact absurd hmem (no_add_fold t _ hnAt hnmem)
        · rintro (hA | ⟨_, hnR⟩)
          · exact absurd hA hnA
          · exact absurd hR hnR
      · have Ht : ¬ (has_exc t d sid "1" ∧ has_exc t d sid "2") := by
          rintro ⟨h1, h2⟩
          exact H ⟨hsplit1.mpr (Or.inr h1), hsplit2.mpr (Or.inr h2)⟩
        simp only [List.foldl_cons]
        rw [ih _ Ht, mem_apply_exception_neutral hr1 hr2, hsplit1, hsplit2]
        constructor
        · rintro (h | ⟨hm, hn⟩)
          · left; right; exact h
          · right; exact ⟨hm, by rintro (h | h); exacts [hr2 h, hn h]⟩
        · rintro ((h | h) | ⟨hm, hn⟩)
          · exact absurd h hr1
          · left; exact h
          · right; exact ⟨hm, fun h => hn (Or.inr h)⟩

/-- C2 (amended): a dated remove exception forces the service out of the
active set and a dated add exception forces it in, for every weekly pattern,
provided the service has no exception of the opposite type on that date. -/
theorem c2_exceptions_override (cal : List CalRow) (cds : List CalDateRow)
    (d : String) (wd : Weekday) (sid : String) :
    (has_exc cds d sid "2" → ¬ has_exc cds d sid "1" →
      sid ∉ active_services cal cds d wd) ∧
    (has_exc cds d sid "1" → ¬ has_exc cds d sid "2" →
      sid ∈ active_services cal cds d wd) := by
  constructor
  · intro hrem hnoadd
    unfold active_services
    rw [mem_exc_fold cds _ (fun h => hnoadd h.1)]
    rintro (h | ⟨_, hn⟩)
    · exact hnoadd h
    · exact hn hrem
  · intro hadd hnorem
    unfold active_services
    rw [mem_exc_fold cds _ (fun h => hnorem h.2)]
    left
    exact hadd

/-- C2 witness: a lone remove exception hides a weekly-active service, and a
lone add exception surfaces a weekly-inactive one. -/
theorem c2_exceptions_override_witness :
    "S" ∈ weekly_services calC2 "20240310" .sunday ∧
    "S" ∉ active_services calC2 [⟨"S", "20240310", "2"⟩] "20240310" .sunday ∧
    "T" ∉ weekly_services calC2 "20240310" .sunday ∧
    "T" ∈ active_services calC2 [⟨"T", "20240310", "1"⟩] "20240310" .sunday :=
  ⟨by decide,
    (c2_exceptions_override calC2 [⟨"S", "20240310", "2"⟩] "20240310" .sunday "S").1
      (by decide) (by decide),
    by decide,
    (c2_exceptions_override calC2 [⟨"T", "20240310", "1"⟩] "20240310" .sunday "T").2
      (by decide) (by decide)⟩

/-- C2 counterexample: service S has a remove exception dated 2024-03-10 and
its weekly pattern includes that date, yet S is in the active set, because a
later add exception for the same service and date overrides the remove. -/
theorem c2_counterexample :
    has_exc cdsC2 "20240310" "S" "2" ∧
    "S" ∈ weekly_services calC2 "20240310" .sunday ∧
    "S" ∈ active_services calC2 cdsC2 "20240310" .sunday := by
  refine ⟨?_, ?_, ?_⟩ <;> decide

/-- C7 (amended): the active-service set is invariant under permutation of
the dated exception rows provided no service carries both an add and a remove
exception on the target date. -/
theorem c7_exception_perm_invariant (cal : List CalRow) (l1 l2 : List CalDateRow)
    (d : String) (wd : Weekday)
    (H : ∀ r1 ∈ l1, ∀ r2 ∈ l1, r1.date = d → r2.date = d →
      r1.service_id = r2.service_id →
      ¬ (r1.exception_type = "1" ∧ r2.exception_type = "2"))
    (hperm : l1.Perm l2) :
    active_services cal l1 d wd = active_services cal l2 d wd := by
  have hex : ∀ sid ty, has_exc l1 d sid ty ↔ has_exc l2 d sid ty := by
    intro sid ty
    constructor
    · rintro ⟨r, hr, hp⟩; exact ⟨r, hperm.mem_iff.mp hr, hp⟩
    · rintro ⟨r, hr, hp⟩; exact ⟨r, hperm.mem_iff.mpr hr, hp⟩
  have Hs : ∀ sid, ¬ (has_exc l1 d sid "1" ∧ has_exc l1 d sid "2") := by
    rintro sid ⟨⟨r1, hr1, hd1, hs1, ht1⟩, ⟨r2, hr2, hd2, hs2, ht2⟩⟩
    exact H r1 hr1 r2 hr2 hd1 hd2 (hs1.trans hs2.symm) ⟨ht1, ht2⟩
  have Hs2 : ∀ sid, ¬ (has_exc l2 d sid "1" ∧ has_exc l2 d sid "2") := by
    intro sid
    rw [← hex sid "1", ← hex sid "2"]
    exact Hs sid
  ext sid
  unfold active_services
  rw [mem_exc_fold l1 _ (Hs sid), mem_exc_fold l2 _ (Hs2 sid), hex sid "1", hex sid "2"]

/-- C7 witness: swapping exception rows of distinct services leaves the
active set unchanged. -/
theorem c7_exception_perm_invariant_witness :
    active_services calC2 l1W7 "20240310" .sunday
      = active_services calC2 l2W7 "20240310" .sunday :=
  c7_exception_perm_invariant calC2 l1W7 l2W7 "20240310" .sunday (by decide)
    (List.Perm.swap _ _ _)

/-- C7 counterexample: the same two exception rows for one service in the two
possible orders are a permutation of each other yet give different active
sets, so exception order is not immaterial in general. -/
theorem c7_counterexample :
    l1C7.Perm l2C7 ∧
    active_services [] l1C7 "20240310" .sunday
      ≠ active_services [] l2C7 "20240310" .sunday :=
  ⟨List.Perm.swap _ _ _, by decide⟩

/-! Cache claims. -/

/-- C3 (amended): a failed refresh leaves the cached zip and its fetch
timestamp untouched, and whenever the refresh path is taken (cache absent or
stale) the failure propagates to the caller whether or not a zip was cached;
the code never falls back to the stale cached zip inside the call. -/
theorem c3_failed_refresh {Z : Type} (st : CacheState Z) (now : ℚ) (e : String) :
    ((get_zip st now (.error e)).2.zip = st.zip ∧
     (get_zip st now (.error e)).2.fetched_at = st.fetched_at) ∧
    (st.zip = none ∨ GTFS_TTL < now - st.fetched_at →
      (get_zip st now (.error e)).1 = .error e) := by
  cases hz : st.zip with
  | none => simp [get_zip, hz]
  | some z =>
    by_cases h : GTFS_TTL < now - st.fetched_at
    · simp [get_zip, hz, h]
    · have hres : get_zip st now (.error e) = (.ok z, st) := by
        simp [get_zip, hz, h]
      rw [hres]
      refine ⟨⟨hz, rfl⟩, ?_⟩
      rintro (hc | hc)
      · exact Option.noConfusion hc
      · exact absurd hc h

/-- C3 witness: a stale cache plus a failed download keeps the old zip and
its timestamp and surfaces the error. -/
theorem c3_failed_refresh_witness :
    ((get_zip (⟨some 7, 0, 1⟩ : CacheState Nat) 30000 (.error "download failed")).2.zip
        = some 7 ∧
     (get_zip (⟨some 7, 0, 1⟩ : CacheState Nat) 30000 (.error "download failed")).2.fetched_at
        = 0) ∧
    (get_zip (⟨some 7, 0, 1⟩ : CacheState Nat) 30000 (.error "download failed")).1
        = .error "download failed" :=
  ⟨(c3_failed_refresh ⟨some 7, 0, 1⟩ 30000 "download failed").1,
    (c3_failed_refresh ⟨some 7, 0, 1⟩ 30000 "download failed").2
      (Or.inr (by norm_num [GTFS_TTL]))⟩

/-- C3 counterexample: a previously cached zip exists, the refresh fails, yet
the call surfaces the failure instead of recovering with the cached zip. -/
theorem c3_counterexample :
    (⟨some 7, 0, 1⟩ : CacheState Nat).zip.isSome = true ∧
    (get_zip (⟨some 7, 0, 1⟩ : CacheState Nat) 30000 (.error "network down")).1
      = .error "network down" := by
  constructor
  · rfl
  · simp only [get_zip]
    norm_num [GTFS_TTL]

/-- C8 (amended): when the download succeeds, any number of simultaneous
callers serialized on the lock against a cold (absent or stale) cache trigger
exactly one acquisition and all receive the downloaded zip. -/
theorem c8_single_flight {Z : Type} (z : Z) (st : CacheState Z) (now : ℚ) (n : Nat)
    (hcold : st.zip = none ∨ GTFS_TTL < now - st.fetched_at) (hn : 1 ≤ n) :
    run_calls st now (List.replicate n (.ok z))
      = (List.replicate n (.ok z), ⟨some z, now, st.downloads + 1⟩) := by
  obtain ⟨m, rfl⟩ : ∃ m, n = m + 1 := ⟨n - 1, by omega⟩
  have h1 : get_zip st now (.ok z) = (.ok z, ⟨some z, now, st.downloads + 1⟩) := by
    cases hz : st.zip with
    | none => simp [get_zip, hz]
    | some z' =>
      rcases hcold with h | h
      · rw [hz] at h; exact absurd h (by simp)
      · simp [get_zip, hz, h]
  have h2 : ∀ (k : Nat) (st' : CacheState Z), st'.zip = some z → st'.fetched_at = now →
      run_calls st' now (List.replicate k (.ok z)) = (List.replicate k (.ok z), st') := by
    intro k
    induction k with
    | zero => intro st' _ _; simp [run_calls]
    | succ k ih =>
      intro st' hz' hf'
      have hserve : get_zip st' now (.ok z) = (.ok z, st') := by
        have hfresh : ¬ GTFS_TTL < now - st'.fetched_at := by
          rw [hf']
          norm_num [GTFS_TTL]
        simp [get_zip, hz', hfresh]
      simp [List.replicate_succ, run_calls, hserve, ih st' hz' hf']
  simp [List.replicate_succ, run_calls, h1, h2 m ⟨some z, now, st.downloads + 1⟩ rfl rfl]

/-- C8 witness: three simultaneous callers against an absent cache get the
downloaded zip and exactly one acquisition happens. -/
theorem c8_single_flight_witness :
    run_calls (⟨none, 0, 0⟩ : CacheState Nat) 0 (List.replicate 3 (.ok 5))
      = (List.replicate 3 (.ok 5), ⟨some 5, 0, 1⟩) :=
  c8_single_flight 5 ⟨none, 0, 0⟩ 0 3 (Or.inl rfl) (by norm_num)

/-- C8 counterexample: when the download fails, two simultaneous callers
against a cold cache perform two acquisitions (the second does not receive
the first refresh's outcome but retries), refuting the unconditional
single-acquisition claim. -/
theorem c8_counterexample :
    run_calls (⟨none, 0, 0⟩ : CacheState Nat) 0 [.error "down", .error "down"]
      = ([.error "down", .error "down"], ⟨none, 0, 2⟩) ∧
    (run_calls (⟨none, 0, 0⟩ : CacheState Nat) 0
        [.error "down", .error "down"]).2.downloads ≠ 1 := by
  constructor
  · simp [run_calls, get_zip]
  · simp [run_calls, get_zip]

/-! Builder claims. -/

/-- C4: when the parsed hour is 24 or more and an arrival is built, its wall
clock shows the hour minus 24 on the calendar day after the service date. -/
theorem c4_post_midnight_rollover (time_str : String) (date : Date) (trip : Trip)
    (origin : String) (h0 m0 : Int) (a : Arrival)
    (hp : parse_hm time_str = some (h0, m0)) (h24 : 24 ≤ h0)
    (hb : build_arrival time_str date trip origin = some a) :
    a.scheduled_time.wall.date = addDays date 1 ∧
    a.scheduled_time.wall.hour = h0 - 24 ∧
    a.scheduled_time.wall.minute = m0 := by
  unfold build_arrival at hb
  rw [hp] at hb
  simp only [if_pos h24] at hb
  split at hb
  · have ha := Option.some.inj hb
    subst ha
    simp [addDaysAware, localize]
  · exact Option.noConfusion hb

/-- C4 witness: the round-trip instance, "25:15" on 2024-03-10 builds the
local timestamp 2024-03-11 01:15 (winter offset +60). -/
theorem c4_post_midnight_rollover_witness :
    parse_hm "25:15" = some (25, 15) ∧
    build_arrival "25:15" ⟨2024, 3, 10⟩ tripTGV "" = some arrC4 ∧
    arrC4.scheduled_time.wall.date = addDays ⟨2024, 3, 10⟩ 1 ∧
    arrC4.scheduled_time.wall.date = ⟨2024, 3, 11⟩ ∧
    arrC4.scheduled_time.wall.hour = 25 - 24 ∧
    arrC4.scheduled_time.wall.minute = 15 ∧
    arrC4.scheduled_time.offsetMin = 60 := by
  have h := c4_post_midnight_rollover "25:15" ⟨2024, 3, 10⟩ tripTGV "" 25 15 arrC4
    (by decide) (by decide) (by decide)
  exact ⟨by decide, by decide, h.1, by decide, h.2.1, h.2.2, by decide⟩

/-- C5 (amended): a row whose parsed hour is below 24 (so no day offset) and
whose wall time on the service date is ambiguous builds an arrival resolved to
the standard-time offset +60, which denotes the later of the two candidate
instants; the builder returns an event rather than failing. -/
theorem c5_ambiguous_resolution (time_str : String) (date : Date) (trip : Trip)
    (origin : String) (h0 m0 : Int)
    (hp : parse_hm time_str = some (h0, m0))
    (hh : 0 ≤ h0 ∧ h0 ≤ 23) (hm : 0 ≤ m0 ∧ m0 ≤ 59)
    (hamb : luxAmbiguous ⟨date, h0, m0⟩ = true) :
    (build_arrival time_str date trip origin).isSome = true ∧
    ∀ a, build_arrival time_str date trip origin = some a →
      a.scheduled_time = ⟨⟨date, h0, m0⟩, 60⟩ ∧
      utcMinutes a.scheduled_time > utcMinutes ⟨⟨date, h0, m0⟩, 120⟩ := by
  have h24 : ¬ 24 ≤ h0 := by omega
  have hres : build_arrival time_str date trip origin
      = some { transport_type := .train
               scheduled_time := ⟨⟨date, h0, m0⟩, 60⟩
               identifier := trip.route_name
               origin := if (if origin ≠ "" then clean_stop_name origin else "—") = ""
                 then "—" else (if origin ≠ "" then clean_stop_name origin else "—")
               status := "scheduled"
               delay_minutes := 0 } := by
    unfold build_arrival
    rw [hp]
    simp only [if_neg h24]
    rw [if_pos ⟨hh.1, hh.2, hm.1, hm.2⟩]
    have hoff : luxOffset ⟨date, h0, m0⟩ false = 60 := by
      unfold luxOffset
      rw [hamb]
      simp
    simp [localize, hoff]
  constructor
  · rw [hres]; rfl
  · intro a ha
    rw [hres] at ha
    have ha' := Option.some.inj ha
    subst ha'
    constructor
    · rfl
    · simp [utcMinutes]

/-- C5 witness: "02:30" on the 2024 fall-back date 2024-10-27 resolves to the
standard-time interpretation. -/
theorem c5_ambiguous_resolution_witness :
    build_arrival "02:30" ⟨2024, 10, 27⟩ tripTGV "" = some arrW5 ∧
    arrW5.scheduled_time = ⟨⟨⟨2024, 10, 27⟩, 2, 30⟩, 60⟩ ∧
    utcMinutes arrW5.scheduled_time > utcMinutes ⟨⟨⟨2024, 10, 27⟩, 2, 30⟩, 120⟩ := by
  have h := (c5_ambiguous_resolution "02:30" ⟨2024, 10, 27⟩ tripTGV "" 2 30
    (by decide) (by decide) (by decide) (by decide)).2 arrW5 (by decide)
  exact ⟨by decide, h.1, h.2⟩

/-- C5 counterexample: "26:30" on 2024-10-26 normalizes to the ambiguous wall
time 2024-10-27 02:30 but keeps the daylight offset +120 resolved on the
service date, not the claimed post-transition standard offset +60. -/
theorem c5_counterexample :
    build_arrival "26:30" ⟨2024, 10, 26⟩ tripTGV "" = some arrC5 ∧
    luxAmbiguous arrC5.scheduled_time.wall = true ∧
    arrC5.scheduled_time.offsetMin = 120 ∧
    arrC5.scheduled_time.offsetMin ≠ 60 := by
  refine ⟨?_, ?_, ?_, ?_⟩ <;> decide

/-- C10: the builder is total with result type Option, and a parsed hour of
48 or more, or a minute outside 0..59, lands in the error branch: no event. -/
theorem c10_overflow_guard (time_str : String) (date : Date) (trip : Trip)
    (origin : String) (h0 m0 : Int)
    (hp : parse_hm time_str = some (h0, m0))
    (hbad : 48 ≤ h0 ∨ m0 < 0 ∨ 59 < m0) :
    build_arrival time_str date trip origin = none := by
  unfold build_arrival
  rw [hp]
  rcases hbad with hb | hb | hb <;>
    (dsimp only; split_ifs <;> first | rfl | (exfalso; omega))

/-- C10 witness: "48:00" parses to hour 48 and builds nothing. -/
theorem c10_overflow_guard_witness :
    parse_hm "48:00" = some (48, 0) ∧
    build_arrival "48:00" ⟨2024, 3, 10⟩ tripTGV "" = none :=
  ⟨by decide,
    c10_overflow_guard "48:00" ⟨2024, 3, 10⟩ tripTGV "" 48 0 (by decide)
      (Or.inl (by decide))⟩

/-! Extractor ordering claim. -/

/-- C6 (amended): the extractor's output is sorted ascending by absolute
timestamp and is a permutation of the decision-pass results; the sort is
stable, so equal timestamps keep scan order and are not reordered by
category name. -/
theorem c6_sorted_by_timestamp (stop_times : List StopTimeRow) (trips : List (String × Trip))
    (stops : List StopRow) (date : Date) :
    List.Sorted arrLe (extract_arrivals stop_times trips stops date) ∧
    (extract_arrivals stop_times trips stops date).Perm
      ((scan stop_times trips).gc_rows.filterMap
        (decision trips date (scan stop_times trips).trip_max_seq
          (scan stop_times trips).trip_first (read_stop_names stops))) :=
  ⟨List.sorted_insertionSort arrLe _, List.perm_insertionSort arrLe _⟩

/-- C6 counterexample: two arrivals with equal timestamps come out in scan
order TGV before IC, so ties are not ordered by category name. -/
theorem c6_counterexample :
    (extract_arrivals stC6 tripsC6 stopsC6 ⟨2024, 3, 10⟩).map
        (fun a => (a.identifier, a.effective_time))
      = [("TGV", 28501020), ("IC", 28501020)] ∧
    ¬ timestamp_sorted_category_ties (extract_arrivals stC6 tripsC6 stopsC6 ⟨2024, 3, 10⟩) := by
  constructor
  · decide
  · unfold timestamp_sorted_category_ties
    decide

/-! Facade claim helper lemmas. -/

theorem py_min_by_mem (key : Arrival → ℚ) (h : Arrival) (t : List Arrival) :
    py_min_by key h t ∈ h :: t := by
  induction t generalizing h with
  | nil => simp [py_min_by]
  | cons x t ih =>
    show py_min_by key (if key x < key h then x else h) t ∈ h :: x :: t
    by_cases hx : key x < key h
    · rw [if_pos hx]
      rcases List.mem_cons.mp (ih x) with h1 | h1
      · rw [h1]
        exact List.mem_cons_of_mem _ (List.mem_cons_self _ _)
      · exact List.mem_cons_of_mem _ (List.mem_cons_of_mem _ h1)
    · rw [if_neg hx]
      rcases List.mem_cons.mp (ih h) with h1 | h1
      · rw [h1]
        exact List.mem_cons_self _ _
      · exact List.mem_cons_of_mem _ (List.mem_cons_of_mem _ h1)

theorem py_min_by_le (key : Arrival → ℚ) (h : Arrival) (t : List Arrival) :
    ∀ x ∈ h :: t, key (py_min_by key h t) ≤ key x := by
  induction t generalizing h with
  | nil =>
    intro x hx
    rcases List.mem_cons.mp hx with h1 | h1
    · subst h1; exact le_refl _
    · exact absurd h1 (List.not_mem_nil x)
  | cons y t ih =>
    intro x hx
    show key (py_min_by key (if key y < key h then y else h) t) ≤ key x
    by_cases hy : key y < key h
    · rw [if_pos hy]
      rcases List.mem_cons.mp hx with h1 | h1
      · rw [h1]
        exact le_trans (ih y y (List.mem_cons_self _ _)) (le_of_lt hy)
      · rcases List.mem_cons.mp h1 with h2 | h2
        · rw [h2]
          exact ih y y (List.mem_cons_self _ _)
        · exact ih y x (List.mem_cons_of_mem _ h2)
    · rw [if_neg hy]
      rcases List.mem_cons.mp hx with h1 | h1
      · rw [h1]
        exact ih h h (List.mem_cons_self _ _)
      · rcases List.mem_cons.mp h1 with h2 | h2
        · rw [h2]
          exact le_trans (ih h h (List.mem_cons_self _ _)) (le_of_not_lt hy)
        · exact ih h x (List.mem_cons_of_mem _ h2)

theorem day_hit_mem_min (now : ℚ) (l : List Arrival) (a : Arrival)
    (h : day_hit now (.ok l) = some a) :
    a ∈ l ∧ a.identifier = "TGV" ∧ (a.effective_time : ℚ) > now ∧
    ∀ b ∈ l, b.identifier = "TGV" → (b.effective_time : ℚ) > now →
      (a.effective_time : ℚ) ≤ (b.effective_time : ℚ) := by
  have h' : (match l.filter
      (fun a => decide (a.identifier = "TGV" ∧ (a.effective_time : ℚ) > now)) with
    | [] => (none : Option Arrival)
    | h0 :: t0 => some (py_min_by (fun a => (a.effective_time : ℚ)) h0 t0)) = some a := h
  cases hf : l.filter (fun a => decide (a.identifier = "TGV" ∧ (a.effective_time : ℚ) > now)) with
  | nil => rw [hf] at h'; exact Option.noConfusion h'
  | cons h0 t0 =>
    rw [hf] at h'
    have ha := Option.some.inj h'
    subst ha
    have hmem : py_min_by (fun a => (a.effective_time : ℚ)) h0 t0 ∈ h0 :: t0 :=
      py_min_by_mem _ _ _
    rw [← hf] at hmem
    have hmem' := List.mem_filter.mp hmem
    have hp := of_decide_eq_true hmem'.2
    refine ⟨hmem'.1, hp.1, hp.2, ?_⟩
    intro b hb hbid hbt
    have hbf : b ∈ h0 :: t0 := by
      rw [← hf]
      exact List.mem_filter.mpr ⟨hb, decide_eq_true ⟨hbid, hbt⟩⟩
    exact py_min_by_le (fun a => (a.effective_time : ℚ)) h0 t0 b hbf

theorem day_hit_error (now : ℚ) (e : String) : day_hit now (.error e) = none := rfl

/-- C9 (amended): the facade scans offset 0 then offset 1; a failed date is
skipped; a returned arrival is a TGV strictly after now that is minimal among
the matches of the first scanned date that has any match (not necessarily
minimal across the whole window); the result is absent exactly when no
scanned date has a match. -/
theorem c9_window_scan (now : ℚ) (f : Nat → Except String (List Arrival)) :
    (∀ e, f 0 = .error e → get_next_tgv now f = day_hit now (f 1)) ∧
    (∀ a, get_next_tgv now f = some a →
      a.identifier = "TGV" ∧ (a.effective_time : ℚ) > now ∧
      ∃ k, k ≤ 1 ∧ (∃ l, f k = .ok l ∧ a ∈ l ∧
        ∀ b ∈ l, b.identifier = "TGV" → (b.effective_time : ℚ) > now →
          (a.effective_time : ℚ) ≤ (b.effective_time : ℚ)) ∧
      ∀ j, j < k → day_hit now (f j) = none) ∧
    (get_next_tgv now f = none ↔ day_hit now (f 0) = none ∧ day_hit now (f 1) = none) := by
  refine ⟨?_, ?_, ?_⟩
  · intro e he
    unfold get_next_tgv
    rw [he, day_hit_error]
    cases hd : day_hit now (f 1) <;> simp
  · intro a ha
    unfold get_next_tgv at ha
    cases h0 : day_hit now (f 0) with
    | some a0 =>
      rw [h0] at ha
      have haa := Option.some.inj ha
      subst haa
      cases hf0 : f 0 with
      | error e => rw [hf0, day_hit_error] at h0; exact Option.noConfusion h0
      | ok l =>
        rw [hf0] at h0
        have hd := day_hit_mem_min now l a0 h0
        exact ⟨hd.2.1, hd.2.2.1,
          0, by omega, ⟨l, hf0, hd.1, hd.2.2.2⟩, fun j hj => absurd hj (by omega)⟩
    | none =>
      rw [h0] at ha
      cases h1 : day_hit now (f 1) with
      | none => rw [h1] at ha; exact Option.noConfusion ha
      | some a1 =>
        rw [h1] at ha
        have haa := Option.some.inj ha
        subst haa
        cases hf1 : f 1 with
        | error e => rw [hf1, day_hit_error] at h1; exact Option.noConfusion h1
        | ok l =>
          rw [hf1] at h1
          have hd := day_hit_mem_min now l a1 h1
          refine ⟨hd.2.1, hd.2.2.1, 1, le_refl 1, ⟨l, hf1, hd.1, hd.2.2.2⟩, ?_⟩
          intro j hj
          have hj0 : j = 0 := by omega
          rw [hj0]
          exact h0
  · unfold get_next_tgv
    cases h0 : day_hit now (f 0) with
    | some a0 => simp
    | none => cases h1 : day_hit now (f 1) <;> simp

/-- C9 witness: a failed first date is skipped, and with no matches anywhere
the facade reports absence. -/
theorem c9_window_scan_witness :
    fW9 0 = .error "decode failed" ∧
    get_next_tgv nowC9 fW9 = day_hit nowC9 (fW9 1) ∧
    get_next_tgv nowC9 fW9 = none :=
  ⟨rfl, (c9_window_scan nowC9 fW9).1 "decode failed" rfl,
    (c9_window_scan nowC9 fW9).2.2.mpr ⟨rfl, rfl⟩⟩

/-- C9 counterexample: against `feedC9`, the facade returns the day-0 arrival
at instant `eT1utc` (2024-03-11 01:30) although day 1 of the window holds a
TGV match strictly after now with a strictly smaller timestamp (2024-03-11
00:15), so the result is not the minimal match of the window. -/
theorem c9_counterexample :
    (get_next_tgv nowC9 fC9).map Arrival.effective_time = some eT1utc ∧
    ((fC9 1).toOption.getD []).any
      (fun b => decide (b.identifier = "TGV" ∧ (b.effective_time : ℚ) > nowC9 ∧
        b.effective_time < eT1utc)) = true := by
  constructor <;> decide

end LuxTrains
